import Mathlib

/-!
Verification development for the document-processing lambda handler
(src/procdoc_lambda.py).

The handler is embedded shallowly:

* Python dict/list/str/number values that the handler inspects are modelled
  by the `Json` inductive; numeric values are kept as their source literal
  because the handler never inspects a numeric value.
* `json.loads` is modelled by `json_loads`, a fuel-based parser following the
  Python `json` module (whitespace, strings with escapes, numbers kept as
  literals, the NaN/Infinity extensions, objects, arrays, and the same
  error conditions).  Unpaired `\uXXXX` surrogate escapes, which a Lean
  `Char` cannot hold, are replaced by U+FFFD; the handler never observes
  the difference on any input considered here.
* `json.dumps` is modelled by `json_dumps` (default separators, ensure_ascii).
* `base64.b64decode` on a `str` argument is modelled by `b64decode`,
  following CPython binascii.a2b_base64 in non-strict mode (non-alphabet
  characters are skipped, padding terminates a final quad, leftover data
  characters raise).  `base64.b64encode` is modelled by `b64encode`.
* The two AWS clients are oracles passed to the handler as functions
  returning `Except String _`; an `.error e` models the client raising an
  exception whose `str` is `e`.  The `Trace` component of the result records
  the argument of every upstream call that was made.
* Python exceptions inside the `try` block are modelled by `Except String`;
  the catch-all maps `.error e` to the 500 response built from `e`.
  Exception texts follow the CPython messages, except that the quote
  characters Python puts around type names are omitted.
* The event is modelled with `body : Option String` (`none` = key absent)
  and `isBase64Encoded : Option Bool`; a JSON-null body value is not
  distinguished from an absent key (both are falsy in the source).
-/

/-- A decoded Python/JSON value as far as the handler can observe it.
Numbers keep their source literal: the handler never uses a numeric value,
only its type. -/
inductive Json where
  | null : Json
  | bool : Bool → Json
  | num : String → Json
  | str : String → Json
  | arr : List Json → Json
  | obj : List (String × Json) → Json

/-- Python type name of a numeric literal (float if it has a fraction,
an exponent, or is one of the non-finite extensions, else int). -/
def litFloatLike (lit : String) : Bool :=
  lit.toList.contains '.' || lit.toList.contains 'e' || lit.toList.contains 'E'
    || lit.toList.contains 'N' || lit.toList.contains 'I'

/-- Python type name of a value, as it appears in exception messages. -/
def pyTypeName : Json → String
  | .null => "NoneType"
  | .bool _ => "bool"
  | .num lit => if litFloatLike lit then "float" else "int"
  | .str _ => "str"
  | .arr _ => "list"
  | .obj _ => "dict"

/-- Substring test on character lists: Python `needle in hay` for str. -/
def strContainsList : List Char → List Char → Bool
  | [], needle => needle.isEmpty
  | c :: t, needle => needle.isPrefixOf (c :: t) || strContainsList t needle

/-- Python `key in value`.  Dict: key test; str: substring test; list:
element equality (a str compares equal only to an equal str); other types
raise TypeError. -/
def pyContains (key : String) : Json → Except String Bool
  | .obj fields => .ok (fields.any (fun kv => kv.1 == key))
  | .str s => .ok (strContainsList s.toList key.toList)
  | .arr xs => .ok (xs.any (fun j => match j with | .str t => t == key | _ => false))
  | j => .error ("argument of type " ++ pyTypeName j ++ " is not iterable")

/-- Python `value[key]` for a string key.  Dict lookup takes the last
binding (later duplicate keys override earlier ones in a Python dict);
str and list subscripts with a str key raise TypeError. -/
def pySubscript (key : String) : Json → Except String Json
  | .obj fields =>
    match fields.reverse.find? (fun kv => kv.1 == key) with
    | some kv => .ok kv.2
    | none => .error key
  | .str _ => .error "string indices must be integers"
  | .arr _ => .error "list indices must be integers or slices, not str"
  | j => .error (pyTypeName j ++ " object is not subscriptable")

/-- Python `value.get(key, dflt)`: only dicts have `get`. -/
def pyDictGetD (j : Json) (key : String) (dflt : Json) : Except String Json :=
  match j with
  | .obj fields =>
    match fields.reverse.find? (fun kv => kv.1 == key) with
    | some kv => .ok kv.2
    | none => .ok dflt
  | _ => .error (pyTypeName j ++ " object has no attribute get")

/-- Python `value[0]`: list indexing (IndexError when empty), string
indexing (first character as a str), dict lookup of the int key 0
(KeyError), TypeError otherwise. -/
def pyIndex0 : Json → Except String Json
  | .arr [] => .error "list index out of range"
  | .arr (x :: _) => .ok x
  | .str s =>
    match s.toList with
    | [] => .error "string index out of range"
    | c :: _ => .ok (.str (String.mk [c]))
  | .obj _ => .error "0"
  | j => .error (pyTypeName j ++ " object is not subscriptable")

/-- Requires a str value: any other type makes the subsequent `.strip()`
raise AttributeError. -/
def expectStr : Json → Except String String
  | .str s => .ok s
  | j => .error (pyTypeName j ++ " object has no attribute strip")

/-- JSON whitespace as skipped by the Python json module. -/
def isJsonWs (c : Char) : Bool :=
  c = ' ' || c = '\t' || c = '\n' || c = '\r'

/-- Skip JSON whitespace. -/
def skipWs (l : List Char) : List Char := l.dropWhile isJsonWs

/-- Value of one hex digit. -/
def hexDigit (c : Char) : Option Nat :=
  let n := c.toNat
  if 48 ≤ n ∧ n ≤ 57 then some (n - 48)
  else if 65 ≤ n ∧ n ≤ 70 then some (n - 55)
  else if 97 ≤ n ∧ n ≤ 102 then some (n - 87)
  else none

/-- Four hex digits of a `\uXXXX` escape. -/
def parseHex4 : List Char → Option (Nat × List Char)
  | a :: b :: c :: d :: rest =>
    match hexDigit a, hexDigit b, hexDigit c, hexDigit d with
    | some x, some y, some z, some w => some (x * 4096 + y * 256 + z * 16 + w, rest)
    | _, _, _, _ => none
  | _ => none

/-- Body of a JSON string after the opening quote, following the Python
json module: escape sequences, rejection of unescaped control characters,
surrogate pairs combined; an unpaired surrogate escape becomes U+FFFD
(a Lean Char cannot hold a lone surrogate). -/
def parseStringBody : Nat → List Char → List Char → Except String (String × List Char)
  | 0, _, _ => .error "maximum recursion depth exceeded"
  | fuel + 1, acc, l =>
    match l with
    | [] => .error "Unterminated string starting at"
    | c :: rest =>
      if c = '"' then .ok (String.mk acc.reverse, rest)
      else if c = '\\' then
        match rest with
        | [] => .error "Unterminated string starting at"
        | e :: rest2 =>
          if e = '"' then parseStringBody fuel ('"' :: acc) rest2
          else if e = '\\' then parseStringBody fuel ('\\' :: acc) rest2
          else if e = '/' then parseStringBody fuel ('/' :: acc) rest2
          else if e = 'b' then parseStringBody fuel ('\x08' :: acc) rest2
          else if e = 'f' then parseStringBody fuel ('\x0c' :: acc) rest2
          else if e = 'n' then parseStringBody fuel ('\n' :: acc) rest2
          else if e = 'r' then parseStringBody fuel ('\r' :: acc) rest2
          else if e = 't' then parseStringBody fuel ('\t' :: acc) rest2
          else if e = 'u' then
            match parseHex4 rest2 with
            | none => .error "Invalid \\uXXXX escape"
            | some (n, rest3) =>
              if 55296 ≤ n ∧ n ≤ 56319 then
                match rest3 with
                | '\\' :: 'u' :: rest4 =>
                  match parseHex4 rest4 with
                  | some (m, rest5) =>
                    if 56320 ≤ m ∧ m ≤ 57343 then
                      parseStringBody fuel
                        (Char.ofNat (65536 + (n - 55296) * 1024 + (m - 56320)) :: acc) rest5
                    else parseStringBody fuel ((Char.ofNat 65533) :: acc) rest3
                  | none => parseStringBody fuel ((Char.ofNat 65533) :: acc) rest3
                | _ => parseStringBody fuel ((Char.ofNat 65533) :: acc) rest3
              else if 56320 ≤ n ∧ n ≤ 57343 then
                parseStringBody fuel ((Char.ofNat 65533) :: acc) rest3
              else
                parseStringBody fuel (Char.ofNat n :: acc) rest3
          else .error "Invalid \\escape"
      else if c.toNat < 32 then .error "Invalid control character"
      else parseStringBody fuel (c :: acc) rest

/-- Optional fraction part of a JSON number, per the Python NUMBER_RE
regular expression: the group matches only when at least one digit
follows the dot, otherwise nothing is consumed. -/
def jsonFrac (l : List Char) : List Char × List Char :=
  match l with
  | '.' :: rest =>
    match rest.span Char.isDigit with
    | ([], _) => ([], l)
    | (ds, r) => ('.' :: ds, r)
  | _ => ([], l)

/-- Optional exponent part of a JSON number, same convention. -/
def jsonExp (l : List Char) : List Char × List Char :=
  match l with
  | c :: rest =>
    if c = 'e' ∨ c = 'E' then
      let sr :=
        match rest with
        | s :: r => if s = '+' ∨ s = '-' then ([s], r) else (([] : List Char), rest)
        | [] => (([] : List Char), rest)
      match sr.2.span Char.isDigit with
      | ([], _) => ([], l)
      | (ds, r2) => (c :: (sr.1 ++ ds), r2)
    else ([], l)
  | [] => ([], l)

/-- A JSON number literal: `-?(0|[1-9][0-9]*)(\.[0-9]+)?([eE][+-]?[0-9]+)?`,
returned as the matched characters plus the rest of the input. -/
def parseNumberLit (l : List Char) : Option (List Char × List Char) :=
  let sl := match l with | '-' :: r => ((['-'] : List Char), r) | _ => (([] : List Char), l)
  match sl.2 with
  | '0' :: rest =>
    let fr := jsonFrac rest
    let ex := jsonExp fr.2
    some (sl.1 ++ '0' :: (fr.1 ++ ex.1), ex.2)
  | c :: rest =>
    if c.isDigit then
      let dr := rest.span Char.isDigit
      let fr := jsonFrac dr.2
      let ex := jsonExp fr.2
      some (sl.1 ++ c :: (dr.1 ++ fr.1 ++ ex.1), ex.2)
    else none
  | [] => none

mutual

/-- One JSON value at the current position (no leading whitespace),
following the Python json scanner. -/
def parseValue : Nat → List Char → Except String (Json × List Char)
  | 0, _ => .error "maximum recursion depth exceeded"
  | fuel + 1, l =>
    match l with
    | [] => .error "Expecting value"
    | c :: rest =>
      if c = '"' then
        match parseStringBody (rest.length + 1) [] rest with
        | .error e => .error e
        | .ok (s, r) => .ok (Json.str s, r)
      else if c = Char.ofNat 123 then
        match skipWs rest with
        | c2 :: r2 =>
          if c2 = Char.ofNat 125 then .ok (Json.obj [], r2)
          else parseMembers fuel (skipWs rest) []
        | [] => parseMembers fuel [] []
      else if c = '[' then
        match skipWs rest with
        | c2 :: r2 =>
          if c2 = ']' then .ok (Json.arr [], r2)
          else parseElements fuel (skipWs rest) []
        | [] => parseElements fuel [] []
      else if ['n', 'u', 'l', 'l'].isPrefixOf l then .ok (Json.null, l.drop 4)
      else if ['t', 'r', 'u', 'e'].isPrefixOf l then .ok (Json.bool true, l.drop 4)
      else if ['f', 'a', 'l', 's', 'e'].isPrefixOf l then .ok (Json.bool false, l.drop 5)
      else if ['N', 'a', 'N'].isPrefixOf l then .ok (Json.num "NaN", l.drop 3)
      else if ['I', 'n', 'f', 'i', 'n', 'i', 't', 'y'].isPrefixOf l then
        .ok (Json.num "Infinity", l.drop 8)
      else if ['-', 'I', 'n', 'f', 'i', 'n', 'i', 't', 'y'].isPrefixOf l then
        .ok (Json.num "-Infinity", l.drop 9)
      else
        match parseNumberLit l with
        | some (lit, r) => .ok (Json.num (String.mk lit), r)
        | none => .error "Expecting value"

/-- Members of a JSON object, positioned at a key. -/
def parseMembers : Nat → List Char → List (String × Json) → Except String (Json × List Char)
  | 0, _, _ => .error "maximum recursion depth exceeded"
  | fuel + 1, l, acc =>
    match l with
    | c :: rest =>
      if c = '"' then
        match parseStringBody (rest.length + 1) [] rest with
        | .error e => .error e
        | .ok (k, r1) =>
          match skipWs r1 with
          | ':' :: r3 =>
            match parseValue fuel (skipWs r3) with
            | .error e => .error e
            | .ok (v, r4) =>
              match skipWs r4 with
              | ',' :: r6 => parseMembers fuel (skipWs r6) ((k, v) :: acc)
              | c2 :: r6 =>
                if c2 = Char.ofNat 125 then .ok (Json.obj ((k, v) :: acc).reverse, r6)
                else .error "Expecting , delimiter"
              | [] => .error "Expecting , delimiter"
          | _ => .error "Expecting : delimiter"
      else .error "Expecting property name enclosed in double quotes"
    | [] => .error "Expecting property name enclosed in double quotes"

/-- Elements of a JSON array, positioned at an element. -/
def parseElements : Nat → List Char → List Json → Except String (Json × List Char)
  | 0, _, _ => .error "maximum recursion depth exceeded"
  | fuel + 1, l, acc =>
    match parseValue fuel l with
    | .error e => .error e
    | .ok (v, r1) =>
      match skipWs r1 with
      | ',' :: r3 => parseElements fuel (skipWs r3) (v :: acc)
      | ']' :: r3 => .ok (Json.arr (v :: acc).reverse, r3)
      | _ => .error "Expecting , delimiter"

end

/-- Python `json.loads`: skip leading whitespace, one value, then only
whitespace may remain. -/
def json_loads (s : String) : Except String Json :=
  match parseValue (2 * s.length + 4) (skipWs s.toList) with
  | .error e => .error e
  | .ok (v, rest) => if skipWs rest = [] then .ok v else .error "Extra data"

/-- Four lowercase hex digits, as CPython json.dumps emits them. -/
def hex4 (n : Nat) : String :=
  let d := fun k =>
    let m := k % 16
    if m < 10 then Char.ofNat (48 + m) else Char.ofNat (87 + m)
  String.mk [d (n / 4096), d (n / 256), d (n / 16), d n]

/-- One character of a dumped JSON string, Python defaults (ensure_ascii):
quote and backslash escaped, the usual control shorthands, `\uXXXX` for
other control characters and for every character outside 0x20..0x7e. -/
def jsonEscapeChar (c : Char) : String :=
  if c = '"' then "\\\""
  else if c = '\\' then "\\\\"
  else if c = '\n' then "\\n"
  else if c = '\t' then "\\t"
  else if c = '\r' then "\\r"
  else if c = '\x08' then "\\b"
  else if c = '\x0c' then "\\f"
  else if c.toNat < 32 then "\\u" ++ hex4 c.toNat
  else if c.toNat < 127 then String.mk [c]
  else if c.toNat < 65536 then "\\u" ++ hex4 c.toNat
  else
    "\\u" ++ hex4 (55296 + (c.toNat - 65536) / 1024)
      ++ "\\u" ++ hex4 (56320 + (c.toNat - 65536) % 1024)

/-- A dumped JSON string with quotes. -/
def dumpStr (s : String) : String :=
  "\"" ++ String.join (s.toList.map jsonEscapeChar) ++ "\""

/-- Python `json.dumps` with its default separators. -/
def json_dumps : Json → String
  | .null => "null"
  | .bool b => if b then "true" else "false"
  | .num lit => lit
  | .str s => dumpStr s
  | .arr xs => "[" ++ String.intercalate ", " (xs.attach.map (fun x => json_dumps x.1)) ++ "]"
  | .obj fs =>
    "\x7b" ++ String.intercalate ", "
      (fs.attach.map (fun kv => dumpStr kv.1.1 ++ ": " ++ json_dumps kv.1.2)) ++ "\x7d"
decreasing_by
  · have := List.sizeOf_lt_of_mem x.2
    simp only [Json.arr.sizeOf_spec] at *
    omega
  · have h1 := List.sizeOf_lt_of_mem kv.2
    have h2 : sizeOf kv.1.2 < sizeOf kv.1 := by
      obtain ⟨a, b⟩ := kv.1
      simp only [Prod.mk.sizeOf_spec]
      omega
    simp only [Json.obj.sizeOf_spec] at *
    omega

/-- Value of a character in the standard base64 alphabet. -/
def b64CharVal (c : Char) : Option Nat :=
  let n := c.toNat
  if 65 ≤ n ∧ n ≤ 90 then some (n - 65)
  else if 97 ≤ n ∧ n ≤ 122 then some (n - 97 + 26)
  else if 48 ≤ n ∧ n ≤ 57 then some (n - 48 + 52)
  else if n = 43 then some 62
  else if n = 47 then some 63
  else none

/-- Character encoding a 6-bit value in the standard base64 alphabet. -/
def b64encChar (n : Nat) : Char :=
  if n < 26 then Char.ofNat (65 + n)
  else if n < 52 then Char.ofNat (97 + n - 26)
  else if n < 62 then Char.ofNat (48 + n - 52)
  else if n = 62 then '+' else '/'

/-- CPython binascii.a2b_base64 in non-strict mode: characters outside the
alphabet are skipped, a padding character completing a quad of at least two
data characters ends the decode, leftover data characters at the end raise.
State: remaining input, position in the current quad, pending bits, count
of padding characters seen since the last data character, output (reversed). -/
def a2bLoop : List Char → Nat → Nat → Nat → List Nat → Except String (List Nat)
  | [], quadPos, _, _, out =>
    if quadPos = 0 then .ok out.reverse
    else if quadPos = 1 then
      .error "Invalid base64-encoded string: number of data characters cannot be 1 more than a multiple of 4"
    else .error "Incorrect padding"
  | c :: rest, quadPos, leftchar, pads, out =>
    if c = '=' then
      if 2 ≤ quadPos ∧ 4 ≤ quadPos + (pads + 1) then .ok out.reverse
      else a2bLoop rest quadPos leftchar (pads + 1) out
    else
      match b64CharVal c with
      | none => a2bLoop rest quadPos leftchar pads out
      | some v =>
        match quadPos with
        | 0 => a2bLoop rest 1 v 0 out
        | 1 => a2bLoop rest 2 (v % 16) 0 ((leftchar * 4 + v / 16) :: out)
        | 2 => a2bLoop rest 3 (v % 4) 0 ((leftchar * 16 + v / 4) :: out)
        | _ => a2bLoop rest 0 0 0 ((leftchar * 64 + v) :: out)

/-- Python `base64.b64decode` on a str argument: the argument must be
ASCII (it is encoded with the ascii codec first), then decoded by
`a2bLoop`.  Returns the byte values. -/
def b64decode (s : String) : Except String (List Nat) :=
  if ∀ c ∈ s.toList, c.toNat < 128 then a2bLoop s.toList 0 0 0 []
  else .error "string argument should contain only ASCII characters"

/-- Python `base64.b64encode` of a byte list, as the character list of the
resulting ASCII string. -/
def b64encodeList : List Nat → List Char
  | [] => []
  | [b1] => [b64encChar (b1 / 4), b64encChar (b1 % 4 * 16), '=', '=']
  | [b1, b2] =>
    [b64encChar (b1 / 4), b64encChar (b1 % 4 * 16 + b2 / 16), b64encChar (b2 % 16 * 4), '=']
  | b1 :: b2 :: b3 :: rest =>
    b64encChar (b1 / 4) :: b64encChar (b1 % 4 * 16 + b2 / 16)
      :: b64encChar (b2 % 16 * 4 + b3 / 64) :: b64encChar (b3 % 64) :: b64encodeList rest

/-- Python `base64.b64encode` of a byte list, as a string. -/
def b64encode (bs : List Nat) : String := String.mk (b64encodeList bs)

/-- The whitespace characters stripped by Python `str.strip()` and
`str.isspace` (the Unicode whitespace set). -/
def pyIsSpace (c : Char) : Bool :=
  [9, 10, 11, 12, 13, 28, 29, 30, 31, 32, 133, 160, 5760,
    8192, 8193, 8194, 8195, 8196, 8197, 8198, 8199, 8200, 8201, 8202,
    8232, 8233, 8239, 8287, 12288].contains c.toNat

/-- Python `str.strip()` on a character list. -/
def pyStripList (l : List Char) : List Char :=
  ((l.dropWhile pyIsSpace).reverse.dropWhile pyIsSpace).reverse

/-- Python `str.strip()`. -/
def pyStrip (s : String) : String := String.mk (pyStripList s.toList)

/-- Python `str.split(sep="\n")` on a character list: the separator is a
single newline, empty pieces are kept, the empty string yields one empty
piece. -/
def splitNl : List Char → List (List Char)
  | [] => [[]]
  | c :: rest =>
    match splitNl rest with
    | [] => [[c]]
    | h :: t => if c = '\n' then [] :: h :: t else (c :: h) :: t

/-- Lines 46-51 of the source: strip the generated text, split on newlines,
keep the stripped form of each nonempty line, then truncate to 3 or pad
with empty strings to 3. -/
def normalizeSummary (summary_text : String) : List String :=
  let summary_lines :=
    (splitNl (pyStripList summary_text.toList)).filterMap (fun l =>
      let t := String.mk (pyStripList l)
      if t = "" then none else some t)
  if summary_lines.length > 3 then summary_lines.take 3
  else if summary_lines.length < 3 then
    summary_lines ++ List.replicate (3 - summary_lines.length) ""
  else summary_lines

/-- The normalization exactly as the six numbered steps of the spec state
it: strip the whole text, split on newlines, strip each line, drop lines
empty after stripping, keep the first 3 if more remain, pad with empty
strings to 3 otherwise.  Stated separately from `normalizeSummary` (which
is read off the code) so the two can be compared. -/
def normalizeSummarySpec (s : String) : List String :=
  let lines :=
    (((splitNl (pyStrip s).toList).map (fun l => pyStrip (String.mk l))).filter
      (fun t => t != ""))
  if lines.length > 3 then lines.take 3
  else lines ++ List.replicate (3 - lines.length) ""

/-- The incoming event: `body` is the value of the "body" key when present
as a string, `isBase64Encoded` the value of that key when present. -/
structure Event where
  body : Option String
  isBase64Encoded : Option Bool

/-- One Textract block as far as the handler reads it: the optional
"BlockType" and "Text" entries. -/
structure Block where
  blockType : Option String
  text : Option String

/-- The Textract response as far as the handler reads it: the optional
"Blocks" list. -/
structure TextractResponse where
  blocks : Option (List Block)

/-- A handler response before `json.dumps` is applied to its body. -/
structure Response where
  statusCode : Nat
  body : Json

/-- The arguments of the upstream calls the handler made, in order:
the bytes passed to Textract, the request bodies passed to Bedrock. -/
structure Trace where
  textractCalls : List (List Nat)
  bedrockCalls : List String

/-- The 500 response built by the catch-all except clause. -/
def err500 (e : String) : Response :=
  ⟨500, Json.str ("Server error: " ++ e)⟩

/-- The success body of line 53-56 of the source. -/
def successBody (full_text : String) (summary_lines : List String) : Json :=
  Json.obj [("extracted_text", Json.str full_text),
            ("summary", Json.arr (summary_lines.map Json.str))]

/-- The argument of `base64.b64decode` must be a str (a bytes-like object
is not produced by `json.loads`); other types raise TypeError. -/
def b64ArgString : Json → Except String String
  | .str s => .ok s
  | j => .error ("argument should be a bytes-like object or ASCII string, not " ++ pyTypeName j)

/-- Lines 10-18 of the source: obtain the image bytes, or an early 400
response when no file data is provided, or an exception. -/
def decodeInput (ev : Event) : Except String (Sum (List Nat) Response) :=
  let body := ev.body.getD ""
  if ev.isBase64Encoded.getD false then
    match b64decode body with
    | .error e => .error e
    | .ok bytes => .ok (Sum.inl bytes)
  else
    match (if body ≠ "" then json_loads body else .ok (Json.obj [])) with
    | .error e => .error e
    | .ok event_data =>
      match pyContains "file_data" event_data with
      | .error e => .error e
      | .ok true =>
        match pySubscript "file_data" event_data with
        | .error e => .error e
        | .ok v =>
          match b64ArgString v with
          | .error e => .error e
          | .ok s =>
            match b64decode s with
            | .error e => .error e
            | .ok bytes => .ok (Sum.inl bytes)
      | .ok false => .ok (Sum.inr ⟨400, Json.str "No file data provided"⟩)

/-- Lines 22-23 of the source: the list comprehension taking `item["Text"]`
of every block whose `BlockType` is "LINE"; a LINE block without a Text
entry raises KeyError. -/
def extractLines : List Block → Except String (List String)
  | [] => .ok []
  | b :: rest =>
    if b.blockType == some "LINE" then
      match b.text with
      | some t =>
        match extractLines rest with
        | .ok ts => .ok (t :: ts)
        | .error e => .error e
      | none => .error "Text"
    else extractLines rest

/-- The text lines of a Textract response (`response.get("Blocks", [])`
filtered and projected). -/
def linesOf (tresp : TextractResponse) : Except String (List String) :=
  extractLines (tresp.blocks.getD [])

/-- Line 30 of the source: the fixed prompt template. -/
def buildPrompt (full_text : String) : String :=
  "Summarize this tax document in exactly 3 lines:\n" ++ full_text

/-- Lines 32-40 of the source: the request body passed to invoke_model. -/
def bedrockRequestBody (prompt : String) : String :=
  json_dumps (Json.obj
    [("anthropic_version", Json.str "bedrock-2023-05-31"),
     ("max_tokens", Json.num "200"),
     ("messages", Json.arr [Json.obj [("role", Json.str "user"), ("content", Json.str prompt)]])])

/-- Lines 42-43 of the source: parse the raw Bedrock response body with
`json.loads` and evaluate `result_json.get("content", [dict()])[0].get("text", "")`,
which must produce a str for the later `.strip()`. -/
def parseBedrock (raw : String) : Except String String :=
  match json_loads raw with
  | .error e => .error e
  | .ok rj =>
    match pyDictGetD rj "content" (Json.arr [Json.obj []]) with
    | .error e => .error e
    | .ok cv =>
      match pyIndex0 cv with
      | .error e => .error e
      | .ok first =>
        match pyDictGetD first "text" (Json.str "") with
        | .error e => .error e
        | .ok tv => expectStr tv

/-- The whole handler over the two service oracles, before `json.dumps`
is applied to the response body; also returns the trace of upstream calls. -/
def lambda_handler_core (tO : List Nat → Except String TextractResponse)
    (bO : String → Except String String) (ev : Event) : Response × Trace :=
  match decodeInput ev with
  | .error e => (err500 e, ⟨[], []⟩)
  | .ok (Sum.inr r) => (r, ⟨[], []⟩)
  | .ok (Sum.inl image_bytes) =>
    match tO image_bytes with
    | .error e => (err500 e, ⟨[image_bytes], []⟩)
    | .ok tresp =>
      match linesOf tresp with
      | .error e => (err500 e, ⟨[image_bytes], []⟩)
      | .ok text_lines =>
        let full_text := String.intercalate "\n" text_lines
        if full_text = "" then
          (⟨400, Json.str "OCR found no text"⟩, ⟨[image_bytes], []⟩)
        else
          let req := bedrockRequestBody (buildPrompt full_text)
          match bO req with
          | .error e => (err500 e, ⟨[image_bytes], [req]⟩)
          | .ok raw =>
            match parseBedrock raw with
            | .error e => (err500 e, ⟨[image_bytes], [req]⟩)
            | .ok summary_text =>
              (⟨200, successBody full_text (normalizeSummary summary_text)⟩,
                ⟨[image_bytes], [req]⟩)

/-- A handler response as the source returns it (body a JSON-encoded string). -/
structure LambdaResponse where
  statusCode : Nat
  body : String

/-- The handler as the source returns it: statusCode plus the
`json.dumps` of the body. -/
def lambda_handler (tO : List Nat → Except String TextractResponse)
    (bO : String → Except String String) (ev : Event) : LambdaResponse × Trace :=
  let rt := lambda_handler_core tO bO ev
  (⟨rt.1.statusCode, json_dumps rt.1.body⟩, rt.2)

/-- A Textract oracle that raises. -/
def dummyTextract : List Nat → Except String TextractResponse :=
  fun _ => .error "textract boom"

/-- A Bedrock oracle that raises. -/
def dummyBedrock : String → Except String String :=
  fun _ => .error "bedrock boom"

/-- A Textract oracle returning two LINE blocks and one WORD block. -/
def okTextract : List Nat → Except String TextractResponse :=
  fun _ => .ok ⟨some [⟨some "LINE", some "Hello"⟩, ⟨some "WORD", some "x"⟩,
                      ⟨some "LINE", some "World"⟩]⟩

/-- A Textract oracle returning only a WORD block. -/
def noLineTextract : List Nat → Except String TextractResponse :=
  fun _ => .ok ⟨some [⟨some "WORD", some "x"⟩]⟩

/-- A Bedrock oracle returning a well-formed response with three lines. -/
def okBedrock : String → Except String String :=
  fun _ => .ok "\x7b\"content\": [\x7b\"text\": \"L1\\nL2\\nL3\"\x7d]\x7d"

/-- A Bedrock oracle whose response has a present but empty content list. -/
def emptyContentBedrock : String → Except String String :=
  fun _ => .ok "\x7b\"content\": []\x7d"

/-- A Bedrock oracle whose response is an object with no content key. -/
def noContentBedrock : String → Except String String :=
  fun _ => .ok "\x7b\x7d"

/-- An event carrying base64 of the bytes 1,2,3 directly in the body. -/
def evB64 : Event := ⟨some "AQID", some true⟩

/-- An event carrying base64 of the bytes 1,2,3 in the file_data field. -/
def evFileData : Event := ⟨some "\x7b\"file_data\": \"AQID\"\x7d", some false⟩

/-- An event carrying base64 of the bytes 1,2,3 in the file_data field of
an object that also has another field. -/
def evFileDataExtra : Event :=
  ⟨some "\x7b\"filename\": \"a.png\", \"file_data\": \"AQID\"\x7d", some false⟩

/-- An event with an empty body and the flag off. -/
def evEmptyBody : Event := ⟨some "", some false⟩

/-- An event whose body parses as the JSON number 5. -/
def evNumBody : Event := ⟨some "5", some false⟩

/-- An event whose body is not decodable base64, flag on. -/
def evBadB64 : Event := ⟨some "AB", some true⟩

/-- An event whose body is a JSON object without a file_data field. -/
def evOtherField : Event := ⟨some "\x7b\"other\": 1\x7d", some false⟩

/-! Lemmas about the summary normalization. -/

/-- The filterMap of the source comprehension equals map-then-filter, which
is the form the six numbered spec steps use. -/
theorem filterMap_strip_eq (ls : List (List Char)) :
    ls.filterMap (fun l =>
        let t := String.mk (pyStripList l)
        if t = "" then none else some t)
      = (ls.map (fun l => pyStrip (String.mk l))).filter (fun t => t != "") := by
  induction ls with
  | nil => rfl
  | cons a t ih =>
    simp only [List.filterMap_cons, List.map_cons, List.filter_cons]
    by_cases h : String.mk (pyStripList a) = ""
    · simp only [h, if_pos rfl]
      have h2 : pyStrip (String.mk a) = "" := h
      simp only [h2, bne_self_eq_false, ih]
      rfl
    · simp only [if_neg h]
      have h2 : (pyStrip (String.mk a) != "") = true := by
        simp only [bne_iff_ne]
        exact h
      simp only [h2, if_pos rfl, ih]
      rfl

/-- The code normalization and the spec normalization agree. -/
theorem normalizeSummary_eq_spec (s : String) :
    normalizeSummary s = normalizeSummarySpec s := by
  unfold normalizeSummary normalizeSummarySpec
  rw [filterMap_strip_eq]
  have hts : (pyStrip s).toList = pyStripList s.toList := rfl
  rw [hts]
  set lines := ((splitNl (pyStripList s.toList)).map
    (fun l => pyStrip (String.mk l))).filter (fun t => t != "") with hl
  by_cases h3 : lines.length > 3
  · simp only [if_pos h3]
  · simp only [if_neg h3]
    by_cases hlt : lines.length < 3
    · simp only [if_pos hlt]
    · simp only [if_neg hlt]
      have : lines.length = 3 := by omega
      simp [this]

/-- The normalization always returns exactly 3 entries. -/
theorem normalizeSummary_length (s : String) : (normalizeSummary s).length = 3 := by
  unfold normalizeSummary
  set lines := (splitNl (pyStripList s.toList)).filterMap (fun l =>
    let t := String.mk (pyStripList l)
    if t = "" then none else some t) with hl
  by_cases h3 : lines.length > 3
  · simp only [if_pos h3, List.length_take]
    omega
  · simp only [if_neg h3]
    by_cases hlt : lines.length < 3
    · simp only [if_pos hlt, List.length_append, List.length_replicate]
      omega
    · simp only [if_neg hlt]
      omega

/-! Lemmas about base64. -/

/-- Decoding a character the encoder produced recovers its 6-bit value. -/
theorem val_enc : ∀ n, n < 64 → b64CharVal (b64encChar n) = some n := by decide

/-- The encoder never produces the padding character. -/
theorem enc_ne_pad : ∀ n, n < 64 → b64encChar n ≠ '=' := by decide

/-- The encoder produces only ASCII characters. -/
theorem enc_lt128 : ∀ n, n < 64 → (b64encChar n).toNat < 128 := by decide

/-- A data character at quad position 0 stores its value. -/
theorem a2bLoop_data0 (c : Char) (v : Nat) (hne : c ≠ '=') (hv : b64CharVal c = some v)
    (rest : List Char) (l p : Nat) (out : List Nat) :
    a2bLoop (c :: rest) 0 l p out = a2bLoop rest 1 v 0 out := by
  simp only [a2bLoop, if_neg hne, hv]

/-- A data character at quad position 1 emits one byte. -/
theorem a2bLoop_data1 (c : Char) (v : Nat) (hne : c ≠ '=') (hv : b64CharVal c = some v)
    (rest : List Char) (l p : Nat) (out : List Nat) :
    a2bLoop (c :: rest) 1 l p out = a2bLoop rest 2 (v % 16) 0 ((l * 4 + v / 16) :: out) := by
  simp only [a2bLoop, if_neg hne, hv]

/-- A data character at quad position 2 emits one byte. -/
theorem a2bLoop_data2 (c : Char) (v : Nat) (hne : c ≠ '=') (hv : b64CharVal c = some v)
    (rest : List Char) (l p : Nat) (out : List Nat) :
    a2bLoop (c :: rest) 2 l p out = a2bLoop rest 3 (v % 4) 0 ((l * 16 + v / 4) :: out) := by
  simp only [a2bLoop, if_neg hne, hv]

/-- A data character at quad position 3 emits one byte and closes the quad. -/
theorem a2bLoop_data3 (c : Char) (v : Nat) (hne : c ≠ '=') (hv : b64CharVal c = some v)
    (rest : List Char) (l p : Nat) (out : List Nat) :
    a2bLoop (c :: rest) 3 l p out = a2bLoop rest 0 0 0 ((l * 64 + v) :: out) := by
  simp only [a2bLoop, if_neg hne, hv]

/-- Padding that completes a quad ends the decode. -/
theorem a2bLoop_pad_done (rest : List Char) (q l p : Nat) (out : List Nat)
    (h : 2 ≤ q ∧ 4 ≤ q + (p + 1)) :
    a2bLoop ('=' :: rest) q l p out = .ok out.reverse := by
  simp [a2bLoop, h]

/-- Padding that does not yet complete a quad is counted and skipped. -/
theorem a2bLoop_pad_cont (rest : List Char) (q l p : Nat) (out : List Nat)
    (h : ¬(2 ≤ q ∧ 4 ≤ q + (p + 1))) :
    a2bLoop ('=' :: rest) q l p out = a2bLoop rest q l (p + 1) out := by
  simp [a2bLoop, h]

/-- Decoding one encoded quad of three bytes appends those bytes. -/
theorem a2bLoop_quad (b1 b2 b3 : Nat) (h1 : b1 < 256) (h2 : b2 < 256) (h3 : b3 < 256)
    (rest : List Char) (out : List Nat) :
    a2bLoop (b64encChar (b1 / 4) :: b64encChar (b1 % 4 * 16 + b2 / 16)
        :: b64encChar (b2 % 16 * 4 + b3 / 64) :: b64encChar (b3 % 64) :: rest) 0 0 0 out
      = a2bLoop rest 0 0 0 (b3 :: b2 :: b1 :: out) := by
  have e1 : b1 / 4 < 64 := by omega
  have e2 : b1 % 4 * 16 + b2 / 16 < 64 := by omega
  have e3 : b2 % 16 * 4 + b3 / 64 < 64 := by omega
  have e4 : b3 % 64 < 64 := by omega
  rw [a2bLoop_data0 _ _ (enc_ne_pad _ e1) (val_enc _ e1),
      a2bLoop_data1 _ _ (enc_ne_pad _ e2) (val_enc _ e2),
      a2bLoop_data2 _ _ (enc_ne_pad _ e3) (val_enc _ e3),
      a2bLoop_data3 _ _ (enc_ne_pad _ e4) (val_enc _ e4)]
  have hx1 : b1 / 4 * 4 + (b1 % 4 * 16 + b2 / 16) / 16 = b1 := by omega
  have hx2 : (b1 % 4 * 16 + b2 / 16) % 16 * 16 + (b2 % 16 * 4 + b3 / 64) / 4 = b2 := by omega
  have hx3 : (b2 % 16 * 4 + b3 / 64) % 4 * 64 + b3 % 64 = b3 := by omega
  rw [hx1, hx2, hx3]

/-- Decoding the encoder output of any byte list appends that byte list. -/
theorem a2bLoop_encodeList : ∀ (bs : List Nat), (∀ b ∈ bs, b < 256) →
    ∀ out, a2bLoop (b64encodeList bs) 0 0 0 out = .ok (out.reverse ++ bs) := by
  intro bs
  induction bs using b64encodeList.induct with
  | case1 =>
    intro _ out
    simp [b64encodeList, a2bLoop]
  | case2 b1 =>
    intro h out
    have h1 : b1 < 256 := h b1 (by simp)
    have e1 : b1 / 4 < 64 := by omega
    have e2 : b1 % 4 * 16 < 64 := by omega
    rw [b64encodeList,
        a2bLoop_data0 _ _ (enc_ne_pad _ e1) (val_enc _ e1),
        a2bLoop_data1 _ _ (enc_ne_pad _ e2) (val_enc _ e2),
        a2bLoop_pad_cont _ _ _ _ _ (by omega),
        a2bLoop_pad_done _ _ _ _ _ (by omega)]
    have hx : b1 / 4 * 4 + b1 % 4 * 16 / 16 = b1 := by omega
    rw [hx]
    simp
  | case3 b1 b2 =>
    intro h out
    have h1 : b1 < 256 := h b1 (by simp)
    have h2 : b2 < 256 := h b2 (by simp)
    have e1 : b1 / 4 < 64 := by omega
    have e2 : b1 % 4 * 16 + b2 / 16 < 64 := by omega
    have e3 : b2 % 16 * 4 < 64 := by omega
    rw [b64encodeList,
        a2bLoop_data0 _ _ (enc_ne_pad _ e1) (val_enc _ e1),
        a2bLoop_data1 _ _ (enc_ne_pad _ e2) (val_enc _ e2),
        a2bLoop_data2 _ _ (enc_ne_pad _ e3) (val_enc _ e3),
        a2bLoop_pad_done _ _ _ _ _ (by omega)]
    have hx1 : b1 / 4 * 4 + (b1 % 4 * 16 + b2 / 16) / 16 = b1 := by omega
    have hx2 : (b1 % 4 * 16 + b2 / 16) % 16 * 16 + b2 % 16 * 4 / 4 = b2 := by omega
    rw [hx1, hx2]
    simp
  | case4 b1 b2 b3 rest ih =>
    intro h out
    have h1 : b1 < 256 := h b1 (by simp)
    have h2 : b2 < 256 := h b2 (by simp)
    have h3 : b3 < 256 := h b3 (by simp)
    rw [b64encodeList, a2bLoop_quad b1 b2 b3 h1 h2 h3,
        ih (fun b hb => h b (by simp [hb])) (b3 :: b2 :: b1 :: out)]
    simp

/-- The encoder output is ASCII. -/
theorem encodeList_ascii : ∀ (bs : List Nat), (∀ b ∈ bs, b < 256) →
    ∀ c ∈ b64encodeList bs, c.toNat < 128 := by
  intro bs
  induction bs using b64encodeList.induct with
  | case1 =>
    intro _ c hc
    simp [b64encodeList] at hc
  | case2 b1 =>
    intro h c hc
    have h1 : b1 < 256 := h b1 (by simp)
    rw [b64encodeList] at hc
    simp only [List.mem_cons, List.not_mem_nil, or_false] at hc
    rcases hc with hc | hc | hc | hc <;> rw [hc]
    · exact enc_lt128 _ (by omega)
    · exact enc_lt128 _ (by omega)
    · decide
    · decide
  | case3 b1 b2 =>
    intro h c hc
    have h1 : b1 < 256 := h b1 (by simp)
    have h2 : b2 < 256 := h b2 (by simp)
    rw [b64encodeList] at hc
    simp only [List.mem_cons, List.not_mem_nil, or_false] at hc
    rcases hc with hc | hc | hc | hc <;> rw [hc]
    · exact enc_lt128 _ (by omega)
    · exact enc_lt128 _ (by omega)
    · exact enc_lt128 _ (by omega)
    · decide
  | case4 b1 b2 b3 rest ih =>
    intro h c hc
    have h1 : b1 < 256 := h b1 (by simp)
    have h2 : b2 < 256 := h b2 (by simp)
    have h3 : b3 < 256 := h b3 (by simp)
    rw [b64encodeList] at hc
    simp only [List.mem_cons] at hc
    rcases hc with hc | hc | hc | hc | hc
    · rw [hc]; exact enc_lt128 _ (by omega)
    · rw [hc]; exact enc_lt128 _ (by omega)
    · rw [hc]; exact enc_lt128 _ (by omega)
    · rw [hc]; exact enc_lt128 _ (by omega)
    · exact ih (fun b hb => h b (by simp [hb])) c (by simpa using hc)

/-- Decoding an encoded byte list recovers it exactly. -/
theorem b64decode_encode (bs : List Nat) (h : ∀ b ∈ bs, b < 256) :
    b64decode (b64encode bs) = .ok bs := by
  unfold b64decode b64encode
  have htl : (String.mk (b64encodeList bs)).toList = b64encodeList bs := rfl
  rw [htl, if_pos (encodeList_ascii bs h), a2bLoop_encodeList bs h []]
  rfl

/-! Lemmas about the handler pipeline. -/

/-- The only early return `decodeInput` can produce is the missing-input
400 response. -/
theorem decodeInput_inr (ev : Event) (r : Response)
    (h : decodeInput ev = .ok (Sum.inr r)) :
    r = ⟨400, Json.str "No file data provided"⟩ := by
  unfold decodeInput at h
  simp only [] at h
  repeat' split at h
  all_goals simp_all

/-- Unfolding the handler on a decode exception. -/
theorem core_decode_error (tO : List Nat → Except String TextractResponse)
    (bO : String → Except String String) (ev : Event) (e : String)
    (hd : decodeInput ev = .error e) :
    lambda_handler_core tO bO ev = (err500 e, ⟨[], []⟩) := by
  simp only [lambda_handler_core, hd]

/-- Unfolding the handler on the early 400 return. -/
theorem core_decode_inr (tO : List Nat → Except String TextractResponse)
    (bO : String → Except String String) (ev : Event) (r : Response)
    (hd : decodeInput ev = .ok (Sum.inr r)) :
    lambda_handler_core tO bO ev = (r, ⟨[], []⟩) := by
  simp only [lambda_handler_core, hd]

/-- Unfolding the handler on a Textract exception. -/
theorem core_textract_error (tO : List Nat → Except String TextractResponse)
    (bO : String → Except String String) (ev : Event) (bytes : List Nat) (e : String)
    (hd : decodeInput ev = .ok (Sum.inl bytes)) (ht : tO bytes = .error e) :
    lambda_handler_core tO bO ev = (err500 e, ⟨[bytes], []⟩) := by
  simp only [lambda_handler_core, hd, ht]

/-- Unfolding the handler on a KeyError in the block comprehension. -/
theorem core_lines_error (tO : List Nat → Except String TextractResponse)
    (bO : String → Except String String) (ev : Event) (bytes : List Nat)
    (tresp : TextractResponse) (e : String)
    (hd : decodeInput ev = .ok (Sum.inl bytes)) (ht : tO bytes = .ok tresp)
    (hl : linesOf tresp = .error e) :
    lambda_handler_core tO bO ev = (err500 e, ⟨[bytes], []⟩) := by
  simp only [lambda_handler_core, hd, ht, hl]

/-- Unfolding the handler when the joined text is empty. -/
theorem core_no_text (tO : List Nat → Except String TextractResponse)
    (bO : String → Except String String) (ev : Event) (bytes : List Nat)
    (tresp : TextractResponse) (ls : List String)
    (hd : decodeInput ev = .ok (Sum.inl bytes)) (ht : tO bytes = .ok tresp)
    (hl : linesOf tresp = .ok ls) (hft : String.intercalate "\n" ls = "") :
    lambda_handler_core tO bO ev = (⟨400, Json.str "OCR found no text"⟩, ⟨[bytes], []⟩) := by
  simp [lambda_handler_core, hd, ht, hl, hft]

/-- Unfolding the handler on a Bedrock exception. -/
theorem core_bedrock_error (tO : List Nat → Except String TextractResponse)
    (bO : String → Except String String) (ev : Event) (bytes : List Nat)
    (tresp : TextractResponse) (ls : List String) (e : String)
    (hd : decodeInput ev = .ok (Sum.inl bytes)) (ht : tO bytes = .ok tresp)
    (hl : linesOf tresp = .ok ls) (hft : String.intercalate "\n" ls ≠ "")
    (hb : bO (bedrockRequestBody (buildPrompt (String.intercalate "\n" ls))) = .error e) :
    lambda_handler_core tO bO ev =
      (err500 e, ⟨[bytes], [bedrockRequestBody (buildPrompt (String.intercalate "\n" ls))]⟩) := by
  simp only [lambda_handler_core, hd, ht, hl, if_neg hft, hb]

/-- Unfolding the handler on a Bedrock response whose parse raises. -/
theorem core_parse_error (tO : List Nat → Except String TextractResponse)
    (bO : String → Except String String) (ev : Event) (bytes : List Nat)
    (tresp : TextractResponse) (ls : List String) (raw e : String)
    (hd : decodeInput ev = .ok (Sum.inl bytes)) (ht : tO bytes = .ok tresp)
    (hl : linesOf tresp = .ok ls) (hft : String.intercalate "\n" ls ≠ "")
    (hb : bO (bedrockRequestBody (buildPrompt (String.intercalate "\n" ls))) = .ok raw)
    (hp : parseBedrock raw = .error e) :
    lambda_handler_core tO bO ev =
      (err500 e, ⟨[bytes], [bedrockRequestBody (buildPrompt (String.intercalate "\n" ls))]⟩) := by
  simp only [lambda_handler_core, hd, ht, hl, if_neg hft, hb, hp]

/-- Unfolding the handler along the success path. -/
theorem core_success (tO : List Nat → Except String TextractResponse)
    (bO : String → Except String String) (ev : Event) (bytes : List Nat)
    (tresp : TextractResponse) (ls : List String) (raw st : String)
    (hd : decodeInput ev = .ok (Sum.inl bytes)) (ht : tO bytes = .ok tresp)
    (hl : linesOf tresp = .ok ls) (hft : String.intercalate "\n" ls ≠ "")
    (hb : bO (bedrockRequestBody (buildPrompt (String.intercalate "\n" ls))) = .ok raw)
    (hp : parseBedrock raw = .ok st) :
    lambda_handler_core tO bO ev =
      (⟨200, successBody (String.intercalate "\n" ls) (normalizeSummary st)⟩,
        ⟨[bytes], [bedrockRequestBody (buildPrompt (String.intercalate "\n" ls))]⟩) := by
  simp only [lambda_handler_core, hd, ht, hl, if_neg hft, hb, hp]

/-- Every run of the handler ends in one of exactly four response shapes:
a success with a normalized summary, one of the two 400 messages, or a
500 built by the catch-all. -/
theorem core_cases (tO : List Nat → Except String TextractResponse)
    (bO : String → Except String String) (ev : Event) :
    (∃ ft st, (lambda_handler_core tO bO ev).1
        = ⟨200, successBody ft (normalizeSummary st)⟩ ∧ ft ≠ "")
    ∨ (lambda_handler_core tO bO ev).1 = ⟨400, Json.str "No file data provided"⟩
    ∨ (lambda_handler_core tO bO ev).1 = ⟨400, Json.str "OCR found no text"⟩
    ∨ (∃ e, (lambda_handler_core tO bO ev).1 = err500 e) := by
  cases hd : decodeInput ev with
  | error e =>
    rw [core_decode_error tO bO ev e hd]
    exact Or.inr (Or.inr (Or.inr ⟨e, rfl⟩))
  | ok d =>
    cases d with
    | inr r =>
      rw [core_decode_inr tO bO ev r hd, decodeInput_inr ev r hd]
      exact Or.inr (Or.inl rfl)
    | inl bytes =>
      cases ht : tO bytes with
      | error e =>
        rw [core_textract_error tO bO ev bytes e hd ht]
        exact Or.inr (Or.inr (Or.inr ⟨e, rfl⟩))
      | ok tresp =>
        cases hl : linesOf tresp with
        | error e =>
          rw [core_lines_error tO bO ev bytes tresp e hd ht hl]
          exact Or.inr (Or.inr (Or.inr ⟨e, rfl⟩))
        | ok ls =>
          by_cases hft : String.intercalate "\n" ls = ""
          · rw [core_no_text tO bO ev bytes tresp ls hd ht hl hft]
            exact Or.inr (Or.inr (Or.inl rfl))
          · cases hb : bO (bedrockRequestBody (buildPrompt (String.intercalate "\n" ls))) with
            | error e =>
              rw [core_bedrock_error tO bO ev bytes tresp ls e hd ht hl hft hb]
              exact Or.inr (Or.inr (Or.inr ⟨e, rfl⟩))
            | ok raw =>
              cases hp : parseBedrock raw with
              | error e =>
                rw [core_parse_error tO bO ev bytes tresp ls raw e hd ht hl hft hb hp]
                exact Or.inr (Or.inr (Or.inr ⟨e, rfl⟩))
              | ok st =>
                rw [core_success tO bO ev bytes tresp ls raw st hd ht hl hft hb hp]
                exact Or.inl ⟨String.intercalate "\n" ls, st, rfl, hft⟩

/-- Whenever decoding succeeded, Textract was called exactly once, on the
decoded bytes. -/
theorem core_textract_trace (tO : List Nat → Except String TextractResponse)
    (bO : String → Except String String) (ev : Event) (bytes : List Nat)
    (hd : decodeInput ev = .ok (Sum.inl bytes)) :
    (lambda_handler_core tO bO ev).2.textractCalls = [bytes] := by
  cases ht : tO bytes with
  | error e => rw [core_textract_error tO bO ev bytes e hd ht]
  | ok tresp =>
    cases hl : linesOf tresp with
    | error e => rw [core_lines_error tO bO ev bytes tresp e hd ht hl]
    | ok ls =>
      by_cases hft : String.intercalate "\n" ls = ""
      · rw [core_no_text tO bO ev bytes tresp ls hd ht hl hft]
      · cases hb : bO (bedrockRequestBody (buildPrompt (String.intercalate "\n" ls))) with
        | error e => rw [core_bedrock_error tO bO ev bytes tresp ls e hd ht hl hft hb]
        | ok raw =>
          cases hp : parseBedrock raw with
          | error e => rw [core_parse_error tO bO ev bytes tresp ls raw e hd ht hl hft hb hp]
          | ok st => rw [core_success tO bO ev bytes tresp ls raw st hd ht hl hft hb hp]

/-! Lemmas about splitting and stripping. -/

/-- Splitting never returns an empty list of pieces. -/
theorem splitNl_ne_nil (l : List Char) : splitNl l ≠ [] := by
  cases l with
  | nil => simp [splitNl]
  | cons c rest =>
    rw [splitNl]
    cases splitNl rest with
    | nil => simp
    | cons h t =>
      by_cases hc : c = '\n' <;> simp [hc]

/-- No piece produced by splitting on newlines contains a newline. -/
theorem splitNl_no_newline : ∀ (l : List Char), ∀ piece ∈ splitNl l, '\n' ∉ piece := by
  intro l
  induction l with
  | nil =>
    intro piece hp
    simp [splitNl] at hp
    simp [hp]
  | cons c rest ih =>
    intro piece hp
    cases hsp : splitNl rest with
    | nil => exact absurd hsp (splitNl_ne_nil rest)
    | cons hd tl =>
      have hstep : splitNl (c :: rest) = if c = '\n' then [] :: hd :: tl else (c :: hd) :: tl := by
        rw [splitNl, hsp]
      rw [hstep] at hp
      by_cases hc : c = '\n'
      · rw [if_pos hc] at hp
        rcases List.mem_cons.mp hp with h1 | h1
        · simp [h1]
        · exact ih piece (hsp ▸ h1)
      · rw [if_neg hc] at hp
        rcases List.mem_cons.mp hp with h1 | h1
        · rw [h1]
          intro hmem
          rcases List.mem_cons.mp hmem with h2 | h2
          · exact hc h2.symm
          · exact ih hd (hsp ▸ List.mem_cons_self hd tl) h2
        · exact ih piece (hsp ▸ List.mem_cons_of_mem hd h1)

/-- Members of a dropWhile result are members of the input. -/
theorem mem_of_mem_dropWhile {p : Char → Bool} :
    ∀ (l : List Char) (a : Char), a ∈ l.dropWhile p → a ∈ l := by
  intro l
  induction l with
  | nil => intro a ha; simp [List.dropWhile] at ha
  | cons c t ih =>
    intro a ha
    rw [List.dropWhile_cons] at ha
    by_cases hc : p c
    · rw [if_pos hc] at ha
      exact List.mem_cons_of_mem c (ih a ha)
    · rw [if_neg hc] at ha
      exact ha

/-- Members of the stripped list are members of the input. -/
theorem mem_of_mem_pyStripList (l : List Char) (a : Char) (h : a ∈ pyStripList l) : a ∈ l := by
  unfold pyStripList at h
  rw [List.mem_reverse] at h
  have h2 := mem_of_mem_dropWhile _ _ h
  rw [List.mem_reverse] at h2
  exact mem_of_mem_dropWhile _ _ h2

/-- The head of a nonempty dropWhile result fails the predicate. -/
theorem dropWhile_head_false {p : Char → Bool} :
    ∀ (l : List Char) (c : Char) (cs : List Char), l.dropWhile p = c :: cs → p c = false := by
  intro l
  induction l with
  | nil => intro c cs hc; simp [List.dropWhile] at hc
  | cons a t ih =>
    intro c cs hc
    rw [List.dropWhile_cons] at hc
    by_cases ha : p a
    · rw [if_pos ha] at hc
      exact ih c cs hc
    · rw [if_neg ha] at hc
      cases hc
      simpa using ha

/-- dropWhile does nothing when the head already fails the predicate. -/
theorem dropWhile_id_of_head_false {p : Char → Bool} (c : Char) (cs : List Char)
    (h : p c = false) : (c :: cs).dropWhile p = c :: cs := by
  rw [List.dropWhile_cons, if_neg (by simp [h])]

/-- A nonempty dropWhile result keeps the last element of the input. -/
theorem getLast?_dropWhile {p : Char → Bool} :
    ∀ (l : List Char), l.dropWhile p ≠ [] → (l.dropWhile p).getLast? = l.getLast? := by
  intro l
  induction l with
  | nil => intro h; simp [List.dropWhile] at h
  | cons a t ih =>
    intro h
    rw [List.dropWhile_cons]
    by_cases ha : p a
    · rw [List.dropWhile_cons, if_pos ha] at h
      rw [if_pos ha, ih h]
      cases t with
      | nil => simp [List.dropWhile] at h
      | cons b u => rw [List.getLast?_cons_cons]
    · rw [if_neg ha]

/-- Stripping an already-stripped list does nothing. -/
theorem pyStripList_idem (l : List Char) : pyStripList (pyStripList l) = pyStripList l := by
  unfold pyStripList
  set A := l.dropWhile pyIsSpace with hA
  cases hB : A.reverse.dropWhile pyIsSpace with
  | nil => simp [hB, List.dropWhile]
  | cons c cs =>
    have hBne : A.reverse.dropWhile pyIsSpace ≠ [] := by rw [hB]; simp
    have hArevne : A.reverse ≠ [] := by
      intro hAn
      rw [hAn] at hB
      simp [List.dropWhile] at hB
    have hAne : A ≠ [] := by
      intro hAn
      rw [hAn] at hArevne
      simp at hArevne
    obtain ⟨a, as, hAc⟩ := List.exists_cons_of_ne_nil hAne
    have hpa : pyIsSpace a = false := dropWhile_head_false l a as (hA ▸ hAc)
    have hlastB : (A.reverse.dropWhile pyIsSpace).getLast? = some a := by
      rw [getLast?_dropWhile A.reverse hBne, List.getLast?_reverse, hAc]
      rfl
    rw [hB] at hlastB
    have hheadrev : ((c :: cs).reverse).head? = some a := by
      rw [List.head?_reverse]
      exact hlastB
    have hstep1 : ((c :: cs).reverse).dropWhile pyIsSpace = (c :: cs).reverse := by
      cases hrv : (c :: cs).reverse with
      | nil => simp [List.dropWhile]
      | cons d ds =>
        rw [hrv] at hheadrev
        simp at hheadrev
        exact dropWhile_id_of_head_false d ds (hheadrev ▸ hpa)
    rw [hstep1, List.reverse_reverse]
    have hpc : pyIsSpace c = false := dropWhile_head_false A.reverse c cs hB
    rw [dropWhile_id_of_head_false c cs hpc]

/-- The string form: stripping is idempotent. -/
theorem pyStrip_idem (s : String) : pyStrip (pyStrip s) = pyStrip s := by
  unfold pyStrip
  rw [show (String.mk (pyStripList s.toList)).toList = pyStripList s.toList from rfl,
    pyStripList_idem]

/-- Every entry of the normalized summary is newline free and is either
empty or equal to its own strip. -/
theorem normalizeSummary_mem (s : String) (t : String) (h : t ∈ normalizeSummary s) :
    '\n' ∉ t.toList ∧ (t = "" ∨ pyStrip t = t) := by
  have hlines : ∀ u ∈ (splitNl (pyStripList s.toList)).filterMap (fun l =>
      let t := String.mk (pyStripList l)
      if t = "" then none else some t),
      '\n' ∉ u.toList ∧ (u = "" ∨ pyStrip u = u) := by
    intro u hu
    rw [List.mem_filterMap] at hu
    obtain ⟨piece, hpiece, hif⟩ := hu
    by_cases hz : String.mk (pyStripList piece) = ""
    · simp [hz] at hif
    · simp only [if_neg hz] at hif
      cases hif
      constructor
      · intro hnl
        have h2 : '\n' ∈ pyStripList piece := hnl
        exact splitNl_no_newline _ piece hpiece (mem_of_mem_pyStripList piece '\n' h2)
      · right
        show pyStrip (String.mk (pyStripList piece)) = String.mk (pyStripList piece)
        unfold pyStrip
        rw [show (String.mk (pyStripList piece)).toList = pyStripList piece from rfl,
          pyStripList_idem]
  unfold normalizeSummary at h
  set lines := (splitNl (pyStripList s.toList)).filterMap (fun l =>
    let t := String.mk (pyStripList l)
    if t = "" then none else some t) with hl
  by_cases h3 : lines.length > 3
  · rw [if_pos h3] at h
    exact hlines t (List.mem_of_mem_take h)
  · rw [if_neg h3] at h
    by_cases hlt : lines.length < 3
    · rw [if_pos hlt] at h
      rcases List.mem_append.mp h with hm | hm
      · exact hlines t hm
      · have := List.eq_of_mem_replicate hm
        subst this
        exact ⟨by simp, Or.inl rfl⟩
    · rw [if_neg hlt] at h
      exact hlines t h

/-! Lemmas about the block comprehension. -/

/-- When the comprehension succeeds, it returns the Text of the LINE
blocks in emitted order. -/
theorem extractLines_ok (blocks : List Block) (ts : List String)
    (h : extractLines blocks = .ok ts) :
    ts = (blocks.filter (fun b => b.blockType == some "LINE")).map (fun b => b.text.getD "") := by
  induction blocks generalizing ts with
  | nil =>
    simp [extractLines] at h
    simp [h.symm]
  | cons b rest ih =>
    rw [extractLines] at h
    by_cases hb : b.blockType == some "LINE"
    · rw [if_pos hb] at h
      cases htx : b.text with
      | none => rw [htx] at h; simp at h
      | some t =>
        rw [htx] at h
        cases he : extractLines rest with
        | error e => rw [he] at h; simp at h
        | ok us =>
          rw [he] at h
          simp only [Except.ok.injEq] at h
          rw [← h, ih us he]
          simp [List.filter_cons, hb, htx]
    · rw [if_neg hb] at h
      simp only [List.filter_cons, hb, if_false]
      exact ih ts h

/-- When there are no LINE blocks at all the comprehension returns the
empty list. -/
theorem extractLines_nil (blocks : List Block)
    (h : blocks.filter (fun b => b.blockType == some "LINE") = []) :
    extractLines blocks = .ok [] := by
  induction blocks with
  | nil => rfl
  | cons b rest ih =>
    rw [extractLines]
    by_cases hb : b.blockType == some "LINE"
    · simp only [List.filter_cons, hb, if_true] at h
      simp at h
    · simp only [List.filter_cons, hb, if_false] at h
      rw [if_neg hb]
      exact ih h

/-! The claims. -/

/-- C1: for every request that produces a non-error (status 200) response,
the summary field of the response body is a list of exactly 3 elements,
each a string (possibly empty), regardless of the generated text returned
by the Text-Generation Service. -/
theorem summary_shape_ok (tO : List Nat → Except String TextractResponse)
    (bO : String → Except String String) (ev : Event)
    (h : (lambda_handler_core tO bO ev).1.statusCode = 200) :
    ∃ (ft : String) (ls : List String), (lambda_handler_core tO bO ev).1.body
        = Json.obj [("extracted_text", Json.str ft), ("summary", Json.arr (ls.map Json.str))]
      ∧ ls.length = 3 := by
  rcases core_cases tO bO ev with ⟨ft, st, hr, _⟩ | hr | hr | ⟨e, hr⟩
  · refine ⟨ft, normalizeSummary st, ?_, normalizeSummary_length st⟩
    rw [hr]
    rfl
  · rw [hr] at h
    simp at h
  · rw [hr] at h
    simp at h
  · rw [hr] at h
    simp [err500] at h

/-- Witness for C1: a concrete successful run. -/
theorem summary_shape_ok_witness :
    ∃ (ft : String) (ls : List String), (lambda_handler_core okTextract okBedrock evB64).1.body
        = Json.obj [("extracted_text", Json.str ft), ("summary", Json.arr (ls.map Json.str))]
      ∧ ls.length = 3 :=
  summary_shape_ok okTextract okBedrock evB64 rfl

/-- C2: the summary is computed by exactly the normalization the spec
describes (strip the whole text, split on newlines, strip each line, drop
empties, truncate to 3 or pad with empty strings to 3), and the four
concrete cases of the spec hold. -/
theorem normalization_exact :
    (∀ s, normalizeSummary s = normalizeSummarySpec s)
    ∧ normalizeSummary "A\nB\nC\nD" = ["A", "B", "C"]
    ∧ normalizeSummary "A\n\nB" = ["A", "B", ""]
    ∧ normalizeSummary "" = ["", "", ""]
    ∧ normalizeSummary "  A  \n B " = ["A", "B", ""] :=
  ⟨normalizeSummary_eq_spec, by rfl, by rfl, by rfl, by rfl⟩

/-- C9: every failure other than MissingInput and NoTextDetected maps to a
500 whose JSON body includes the underlying error text; the response is
always exactly one of the three shapes (full success object, one of the
two 400 messages, or a 500 server-error string), so no exception escapes
and no partial result is ever returned; in particular an exception in
either upstream call yields the 500 with that exception text. -/
theorem failure_mapping_total (tO : List Nat → Except String TextractResponse)
    (bO : String → Except String String) (ev : Event) :
    (((lambda_handler_core tO bO ev).1.statusCode = 200
        ∧ ∃ ft ls, (lambda_handler_core tO bO ev).1.body = successBody ft ls)
      ∨ ((lambda_handler_core tO bO ev).1.statusCode = 400
        ∧ ((lambda_handler_core tO bO ev).1.body = Json.str "No file data provided"
          ∨ (lambda_handler_core tO bO ev).1.body = Json.str "OCR found no text"))
      ∨ ((lambda_handler_core tO bO ev).1.statusCode = 500
        ∧ ∃ e, (lambda_handler_core tO bO ev).1.body = Json.str ("Server error: " ++ e)))
    ∧ (∀ bytes e, decodeInput ev = .ok (Sum.inl bytes) → tO bytes = .error e →
        (lambda_handler_core tO bO ev).1 = ⟨500, Json.str ("Server error: " ++ e)⟩)
    ∧ (∀ bytes tresp ls e, decodeInput ev = .ok (Sum.inl bytes) → tO bytes = .ok tresp →
        linesOf tresp = .ok ls → String.intercalate "\n" ls ≠ "" →
        bO (bedrockRequestBody (buildPrompt (String.intercalate "\n" ls))) = .error e →
        (lambda_handler_core tO bO ev).1 = ⟨500, Json.str ("Server error: " ++ e)⟩) := by
  refine ⟨?_, ?_, ?_⟩
  · rcases core_cases tO bO ev with ⟨ft, st, hr, _⟩ | hr | hr | ⟨e, hr⟩
    · exact Or.inl ⟨by rw [hr], ft, normalizeSummary st, by rw [hr]⟩
    · exact Or.inr (Or.inl ⟨by rw [hr], Or.inl (by rw [hr])⟩)
    · exact Or.inr (Or.inl ⟨by rw [hr], Or.inr (by rw [hr])⟩)
    · exact Or.inr (Or.inr ⟨by rw [hr]; rfl, e, by rw [hr]; rfl⟩)
  · intro bytes e hd ht
    rw [core_textract_error tO bO ev bytes e hd ht]
    rfl
  · intro bytes tresp ls e hd ht hl hft hb
    rw [core_bedrock_error tO bO ev bytes tresp ls e hd ht hl hft hb]
    rfl

/-- Witness for C9: a run whose Textract call raises is mapped to the 500
carrying the exception text. -/
theorem failure_mapping_total_witness :
    (lambda_handler_core dummyTextract okBedrock evB64).1
      = ⟨500, Json.str ("Server error: " ++ "textract boom")⟩ :=
  (failure_mapping_total dummyTextract okBedrock evB64).2.1 [1, 2, 3] "textract boom" rfl rfl

/-- C10 (implicit): in every success response each summary entry contains
no newline and is either empty or free of leading and trailing whitespace;
and a request with the flag off and an empty (or absent, hence defaulted)
body is answered with the missing-input 400, not with a JSON parse
failure, and no upstream service is called. -/
theorem implicit_invariants (tO : List Nat → Except String TextractResponse)
    (bO : String → Except String String) (ev : Event) :
    ((lambda_handler_core tO bO ev).1.statusCode = 200 →
      ∃ ft ls, (lambda_handler_core tO bO ev).1.body = successBody ft ls
        ∧ ∀ t ∈ ls, '\n' ∉ t.toList ∧ (t = "" ∨ pyStrip t = t))
    ∧ (ev.isBase64Encoded.getD false = false → ev.body.getD "" = "" →
        lambda_handler_core tO bO ev
          = (⟨400, Json.str "No file data provided"⟩, ⟨[], []⟩)) := by
  constructor
  · intro h
    rcases core_cases tO bO ev with ⟨ft, st, hr, _⟩ | hr | hr | ⟨e, hr⟩
    · exact ⟨ft, normalizeSummary st, by rw [hr], fun t ht => normalizeSummary_mem st t ht⟩
    · rw [hr] at h
      simp at h
    · rw [hr] at h
      simp at h
    · rw [hr] at h
      simp [err500] at h
  · intro h64 hb
    have hd : decodeInput ev = .ok (Sum.inr ⟨400, Json.str "No file data provided"⟩) := by
      simp [decodeInput, h64, hb, pyContains]
    exact core_decode_inr tO bO ev _ hd

/-- Witness for C10: the empty-body run. -/
theorem implicit_invariants_witness :
    lambda_handler_core dummyTextract dummyBedrock evEmptyBody
      = (⟨400, Json.str "No file data provided"⟩, ⟨[], []⟩) :=
  (implicit_invariants dummyTextract dummyBedrock evEmptyBody).2 rfl rfl

/-- C5: for every byte string X, if the request has the flag off and its
body parses as a JSON object whose file_data field holds base64(X) —
whatever other fields the object carries, duplicate keys resolved the way
a Python dict resolves them — then the bytes passed to the OCR Service
equal X exactly. -/
theorem base64_roundtrip_to_ocr (tO : List Nat → Except String TextractResponse)
    (bO : String → Except String String) (ev : Event) (X : List Nat)
    (fs : List (String × Json))
    (hX : ∀ b ∈ X, b < 256)
    (h64 : ev.isBase64Encoded.getD false = false)
    (hbody : ev.body.getD "" ≠ "")
    (hjson : json_loads (ev.body.getD "") = .ok (Json.obj fs))
    (hfield : pySubscript "file_data" (Json.obj fs) = .ok (Json.str (b64encode X))) :
    (lambda_handler_core tO bO ev).2.textractCalls = [X] := by
  have hc : pyContains "file_data" (Json.obj fs) = .ok true := by
    have hfield2 : (match fs.reverse.find? (fun kv => kv.1 == "file_data") with
        | some kv => (Except.ok kv.2 : Except String Json)
        | none => Except.error "file_data") = .ok (Json.str (b64encode X)) := hfield
    cases hf : fs.reverse.find? (fun kv => kv.1 == "file_data") with
    | none =>
      rw [hf] at hfield2
      simp at hfield2
    | some kv =>
      have hp := List.find?_some hf
      have hmem : kv ∈ fs := List.mem_reverse.mp (List.mem_of_find?_eq_some hf)
      unfold pyContains
      simp only [Except.ok.injEq, List.any_eq_true]
      exact ⟨kv, hmem, hp⟩
  have hd : decodeInput ev = .ok (Sum.inl X) := by
    unfold decodeInput
    simp only [h64, Bool.false_eq_true, if_false, if_pos hbody, hjson, hc, hfield,
      b64ArgString, b64decode_encode X hX]
  exact core_textract_trace tO bO ev X hd

/-- Witness for C5: the bytes 1,2,3 arrive at the OCR oracle unchanged,
from an object that also carries an unrelated field. -/
theorem base64_roundtrip_to_ocr_witness :
    (lambda_handler_core dummyTextract dummyBedrock evFileDataExtra).2.textractCalls
      = [[1, 2, 3]] :=
  base64_roundtrip_to_ocr dummyTextract dummyBedrock evFileDataExtra [1, 2, 3]
    [("filename", Json.str "a.png"), ("file_data", Json.str "AQID")]
    (by decide) rfl (by decide) rfl rfl

/-- C6: the handler retains exactly the blocks classified LINE, in emitted
order, joins their Text payloads with a single newline, and returns that
string unchanged as extracted_text in the success response. -/
theorem line_blocks_joined (tO : List Nat → Except String TextractResponse)
    (bO : String → Except String String) (ev : Event) (bytes : List Nat)
    (blocks : List Block)
    (hd : decodeInput ev = .ok (Sum.inl bytes))
    (ht : tO bytes = .ok ⟨some blocks⟩)
    (h200 : (lambda_handler_core tO bO ev).1.statusCode = 200) :
    ∃ ls, (lambda_handler_core tO bO ev).1.body
      = successBody (String.intercalate "\n"
          ((blocks.filter (fun b => b.blockType == some "LINE")).map (fun b => b.text.getD "")))
        ls := by
  cases he : extractLines blocks with
  | error e =>
    have hl : linesOf (⟨some blocks⟩ : TextractResponse) = .error e := he
    rw [core_lines_error tO bO ev bytes _ e hd ht hl] at h200
    simp [err500] at h200
  | ok ts =>
    have hl : linesOf (⟨some blocks⟩ : TextractResponse) = .ok ts := he
    have hts := extractLines_ok blocks ts he
    by_cases hft : String.intercalate "\n" ts = ""
    · rw [core_no_text tO bO ev bytes _ ts hd ht hl hft] at h200
      simp at h200
    · cases hb : bO (bedrockRequestBody (buildPrompt (String.intercalate "\n" ts))) with
      | error e =>
        rw [core_bedrock_error tO bO ev bytes _ ts e hd ht hl hft hb] at h200
        simp [err500] at h200
      | ok raw =>
        cases hp : parseBedrock raw with
        | error e =>
          rw [core_parse_error tO bO ev bytes _ ts raw e hd ht hl hft hb hp] at h200
          simp [err500] at h200
        | ok st =>
          rw [core_success tO bO ev bytes _ ts raw st hd ht hl hft hb hp]
          exact ⟨normalizeSummary st, by rw [← hts]⟩

/-- Witness for C6: two LINE blocks and one WORD block yield the two LINE
texts joined by one newline. -/
theorem line_blocks_joined_witness :
    ∃ ls, (lambda_handler_core okTextract okBedrock evB64).1.body
      = successBody (String.intercalate "\n"
          (([(⟨some "LINE", some "Hello"⟩ : Block), ⟨some "WORD", some "x"⟩,
             ⟨some "LINE", some "World"⟩].filter
              (fun b => b.blockType == some "LINE")).map (fun b => b.text.getD "")))
        ls :=
  line_blocks_joined okTextract okBedrock evB64 [1, 2, 3] _ rfl rfl rfl

/-- C7: when the OCR result has no LINE blocks the handler answers 400
with the no-text message and the Text-Generation Service is never called
(its call list stays empty). -/
theorem no_text_detected_400 (tO : List Nat → Except String TextractResponse)
    (bO : String → Except String String) (ev : Event) (bytes : List Nat)
    (tresp : TextractResponse)
    (hd : decodeInput ev = .ok (Sum.inl bytes))
    (ht : tO bytes = .ok tresp)
    (hnl : (tresp.blocks.getD []).filter (fun b => b.blockType == some "LINE") = []) :
    lambda_handler_core tO bO ev = (⟨400, Json.str "OCR found no text"⟩, ⟨[bytes], []⟩) := by
  have hl : linesOf tresp = .ok [] := extractLines_nil _ hnl
  exact core_no_text tO bO ev bytes tresp [] hd ht hl rfl

/-- Witness for C7: a WORD-only OCR result. -/
theorem no_text_detected_400_witness :
    lambda_handler_core noLineTextract dummyBedrock evB64
      = (⟨400, Json.str "OCR found no text"⟩, ⟨[[1, 2, 3]], []⟩) :=
  no_text_detected_400 noLineTextract dummyBedrock evB64 [1, 2, 3] _ rfl rfl rfl

/-- C3 counterexample: a present but undecodable payload (body "AB" with
the base64 flag set) is answered with status 500 through the catch-all,
not with the status 400 the claim requires. -/
theorem malformed_input_counterexample :
    (lambda_handler_core dummyTextract dummyBedrock evBadB64).1
        = ⟨500, Json.str "Server error: Incorrect padding"⟩
    ∧ (lambda_handler_core dummyTextract dummyBedrock evBadB64).1.statusCode ≠ 400 :=
  ⟨rfl, by decide⟩

/-- C3 amended: a payload that is present but undecodable (malformed
base64 body, malformed JSON body, or malformed base64 in file_data) makes
the handler return the generic 500 server-error response carrying the
exception text, with no upstream call made; no raw parser exception
escapes, but the status is 500, not 400. -/
theorem malformed_input_amended (tO : List Nat → Except String TextractResponse)
    (bO : String → Except String String) (ev : Event) (e : String)
    (h : (ev.isBase64Encoded.getD false = true ∧ b64decode (ev.body.getD "") = .error e)
      ∨ (ev.isBase64Encoded.getD false = false ∧ ev.body.getD "" ≠ ""
          ∧ json_loads (ev.body.getD "") = .error e)
      ∨ (ev.isBase64Encoded.getD false = false ∧ ev.body.getD "" ≠ ""
          ∧ ∃ j s, json_loads (ev.body.getD "") = .ok j
              ∧ pyContains "file_data" j = .ok true
              ∧ pySubscript "file_data" j = .ok (Json.str s)
              ∧ b64decode s = .error e)) :
    lambda_handler_core tO bO ev = (err500 e, ⟨[], []⟩) := by
  have hd : decodeInput ev = .error e := by
    rcases h with ⟨hb, hdec⟩ | ⟨hb, hne, hj⟩ | ⟨hb, hne, j, s, hj, hc, hs, hdec⟩
    · simp [decodeInput, hb, hdec]
    · simp [decodeInput, hb, hne, hj]
    · unfold decodeInput
      simp only [hb, Bool.false_eq_true, if_false, if_pos hne, hj, hc, hs, b64ArgString, hdec]
  exact core_decode_error tO bO ev e hd

/-- Witness for the amended C3: the malformed base64 body. -/
theorem malformed_input_amended_witness :
    lambda_handler_core dummyTextract dummyBedrock evBadB64
      = (err500 "Incorrect padding", ⟨[], []⟩) :=
  malformed_input_amended dummyTextract dummyBedrock evBadB64 "Incorrect padding"
    (Or.inl ⟨rfl, rfl⟩)

/-- C4 counterexample: a Text-Generation response with a present but empty
content list is not treated as empty generated text; the subscript raises
IndexError and the handler answers 500 instead of succeeding. -/
theorem bedrock_shape_counterexample :
    (lambda_handler_core okTextract emptyContentBedrock evB64).1
        = ⟨500, Json.str "Server error: list index out of range"⟩
    ∧ (lambda_handler_core okTextract emptyContentBedrock evB64).1.statusCode ≠ 200 :=
  ⟨rfl, by decide⟩

/-- C4 amended: when the parsed Text-Generation response is an object with
no content key at all, or its content list starts with an object without a
text key, the generated text is taken to be empty and the handler returns
the success response with summary ["", "", ""]; a present-but-empty
content list instead raises and is answered 500. -/
theorem bedrock_shape_amended (tO : List Nat → Except String TextractResponse)
    (bO : String → Except String String) (ev : Event) (bytes : List Nat)
    (tresp : TextractResponse) (ls : List String) (raw : String) (j : Json)
    (hd : decodeInput ev = .ok (Sum.inl bytes)) (ht : tO bytes = .ok tresp)
    (hl : linesOf tresp = .ok ls) (hft : String.intercalate "\n" ls ≠ "")
    (hb : bO (bedrockRequestBody (buildPrompt (String.intercalate "\n" ls))) = .ok raw)
    (hj : json_loads raw = .ok j)
    (hshape : (∃ fs, j = Json.obj fs ∧ fs.reverse.find? (fun kv => kv.1 == "content") = none)
      ∨ (∃ fs gs rest, j = Json.obj fs
          ∧ fs.reverse.find? (fun kv => kv.1 == "content")
              = some ("content", Json.arr (Json.obj gs :: rest))
          ∧ gs.reverse.find? (fun kv => kv.1 == "text") = none)) :
    lambda_handler_core tO bO ev
      = (⟨200, successBody (String.intercalate "\n" ls) ["", "", ""]⟩,
          ⟨[bytes], [bedrockRequestBody (buildPrompt (String.intercalate "\n" ls))]⟩) := by
  have hp : parseBedrock raw = .ok "" := by
    rcases hshape with ⟨fs, hjj, hfind⟩ | ⟨fs, gs, rest, hjj, hfind, hgind⟩
    · subst hjj
      unfold parseBedrock
      simp only [hj, pyDictGetD, hfind]
      rfl
    · subst hjj
      unfold parseBedrock
      simp only [hj, pyDictGetD, hfind, pyIndex0, hgind]
      rfl
  rw [core_success tO bO ev bytes tresp ls raw "" hd ht hl hft hb hp]
  rfl

/-- Witness for the amended C4: a response without a content key. -/
theorem bedrock_shape_amended_witness :
    lambda_handler_core okTextract noContentBedrock evB64
      = (⟨200, successBody (String.intercalate "\n" ["Hello", "World"]) ["", "", ""]⟩,
          ⟨[[1, 2, 3]],
            [bedrockRequestBody (buildPrompt (String.intercalate "\n" ["Hello", "World"]))]⟩) :=
  bedrock_shape_amended okTextract noContentBedrock evB64 [1, 2, 3]
    ⟨some [⟨some "LINE", some "Hello"⟩, ⟨some "WORD", some "x"⟩, ⟨some "LINE", some "World"⟩]⟩
    ["Hello", "World"] "\x7b\x7d" (Json.obj [])
    rfl rfl rfl (by decide) rfl rfl (Or.inl ⟨[], rfl, rfl⟩)

/-- C8 counterexample: the body "5" parses as JSON and contains no
file_data field, yet the handler answers 500 (TypeError from the
membership test on an int), not the 400 the claim requires. -/
theorem missing_file_data_counterexample :
    json_loads "5" = .ok (Json.num "5")
    ∧ (lambda_handler_core dummyTextract dummyBedrock evNumBody).1
        = ⟨500, Json.str "Server error: argument of type int is not iterable"⟩
    ∧ (lambda_handler_core dummyTextract dummyBedrock evNumBody).1.statusCode ≠ 400 :=
  ⟨rfl, rfl, by decide⟩

/-- C8 amended: when the flag is off and the nonempty body parses as a
JSON value on which the membership test succeeds and reports file_data
absent (an object without the key, or a string or array not containing
it), the handler answers 400 with the missing-input message and calls
neither upstream service; a body parsing to a number, boolean or null
raises TypeError and is answered 500 instead. -/
theorem missing_file_data_amended (tO : List Nat → Except String TextractResponse)
    (bO : String → Except String String) (ev : Event) (j : Json)
    (h64 : ev.isBase64Encoded.getD false = false)
    (hb : ev.body.getD "" ≠ "")
    (hj : json_loads (ev.body.getD "") = .ok j)
    (hc : pyContains "file_data" j = .ok false) :
    lambda_handler_core tO bO ev = (⟨400, Json.str "No file data provided"⟩, ⟨[], []⟩) := by
  have hd : decodeInput ev = .ok (Sum.inr ⟨400, Json.str "No file data provided"⟩) := by
    unfold decodeInput
    simp only [h64, Bool.false_eq_true, if_false, if_pos hb, hj, hc]
  exact core_decode_inr tO bO ev _ hd

/-- Witness for the amended C8: a JSON object body without file_data. -/
theorem missing_file_data_amended_witness :
    lambda_handler_core dummyTextract dummyBedrock evOtherField
      = (⟨400, Json.str "No file data provided"⟩, ⟨[], []⟩) :=
  missing_file_data_amended dummyTextract dummyBedrock evOtherField
    (Json.obj [("other", Json.num "1")]) rfl (by decide) rfl rfl
